import Mathlib

/-!
Shallow embedding of `src/bun.js/bindings/webcore/JSWorker.cpp` (Bun's
generated JS binding for the `Worker` object) together with proofs about
its observable behaviour.

Modelling conventions:
* JS values are modelled by the inductive `JSVal`.  An object carries its
  `isArrayType` flag (the JSC cell type check `type() == ArrayType`), an
  `hasIterator` flag (the result of `hasIteratorMethod`), its own
  enumerable string-keyed properties as an association list, and, for
  arrays, the list of its indexed elements.  Property reads
  (`getIfPropertyExists`) are modelled by association-list lookup and are
  total: exotic behaviours (getters that throw, proxies) are outside the
  model, as are the corresponding `RETURN_IF_EXCEPTION` paths.
* The external collaborators used by the binding
  (`SerializedScriptValue::create`, `MessagePort::disentanglePorts`, the
  process env object, `Worker::create` / `updatePtr`) are parameters of a
  `Host` structure, so the theorems quantify over every possible
  collaborator behaviour.
* In the C++ code the option fields are filled in source order with
  effectful reads; in the model every read is pure, so the fields of the
  options snapshot are computed by independent helper functions and the
  single fallible step (serialization of the initial payload, source
  lines 156-194) is the only one threaded through `Except`.
-/

namespace BunWorker

/-- Model of a JavaScript value, restricted to the observations the
binding makes: `undefined`/`null` tests, cell test, object test, array
cell-type test, iterator-method test, own enumerable string-keyed
properties, and array elements. -/
inductive JSVal : Type where
  | undefined : JSVal
  | null : JSVal
  | boolean : Bool → JSVal
  | number : Int → JSVal
  | string : String → JSVal
  | object : (isArrayType : Bool) → (hasIterator : Bool) →
      (props : List (String × JSVal)) → (elements : List JSVal) → JSVal

/-- JSValue::isUndefined. -/
def JSVal.isUndefined : JSVal → Bool
  | JSVal.undefined => true
  | _ => false

/-- JSValue::isUndefinedOrNull. -/
def JSVal.isUndefinedOrNull : JSVal → Bool
  | JSVal.undefined => true
  | JSVal.null => true
  | _ => false

/-- JSValue::isObject. -/
def JSVal.isObject : JSVal → Bool
  | JSVal.object _ _ _ _ => true
  | _ => false

/-- JSValue::isString. -/
def JSVal.isString : JSVal → Bool
  | JSVal.string _ => true
  | _ => false

/-- JSValue::isCell: strings and objects are cells, other primitives are
not. -/
def JSVal.isCell : JSVal → Bool
  | JSVal.string _ => true
  | JSVal.object _ _ _ _ => true
  | _ => false

/-- jsDynamicCast to JSObject, keeping only the property list. -/
def JSVal.objProps : JSVal → Option (List (String × JSVal))
  | JSVal.object _ _ ps _ => some ps
  | _ => none

/-- JSC hasIteratorMethod: objects report their flag; strings are
iterable via the String prototype; other primitives are not. -/
def hasIteratorMethod : JSVal → Bool
  | JSVal.string _ => true
  | JSVal.object _ it _ _ => it
  | _ => false

/-- The check `value.isCell() && value.asCell()->type() == ArrayType`
used for the `argv` and `execArgv` options. -/
def isArrayTyped : JSVal → Bool
  | JSVal.object isArr _ _ _ => isArr
  | _ => false

/-- JSValue::toBoolean (NaN is not representable in the model). -/
def toBoolean : JSVal → Bool
  | JSVal.undefined => false
  | JSVal.null => false
  | JSVal.boolean b => b
  | JSVal.number n => decide (n ≠ 0)
  | JSVal.string s => decide (s ≠ "")
  | JSVal.object _ _ _ _ => true

/-- JSValue::toWTFString.  The exact spelling for objects is irrelevant
to every claim (only "is coerced to a string" matters); user toString
overrides are outside the model. -/
def toWTFString : JSVal → String
  | JSVal.undefined => "undefined"
  | JSVal.null => "null"
  | JSVal.boolean b => if b then "true" else "false"
  | JSVal.number n => toString n
  | JSVal.string s => s
  | JSVal.object _ _ _ _ => "[object Object]"

/-- WTF String::isolatedCopy: a fresh copy sharing no memory with the
original.  Memory aliasing is not observable in the model, so the copy
is value-equal to its input. -/
def isolatedCopy (s : String) : String := s

/-- Token standing for one SerializedScriptValue produced by the
external serializer. -/
structure Serialized where
  id : Nat
deriving DecidableEq, Repr

/-- Token standing for a MessagePort collected during serialization. -/
structure Port where
  id : Nat
deriving DecidableEq, Repr

/-- Token standing for a TransferredMessagePort produced by
MessagePort::disentanglePorts. -/
structure TPort where
  id : Nat
deriving DecidableEq, Repr

/-- A JavaScript exception value propagated out of a collaborator. -/
inductive JSErr : Type where
  | typeError : JSErr
  | custom : Nat → JSErr
deriving DecidableEq, Repr

/-- Errors the constructor can surface, mirroring the throw sites of
`JSWorkerDOMConstructor::construct` (lines 120-272). -/
inductive ConstructErr : Type where
  | notEnoughArguments : ConstructErr
  | contextUnavailable : ConstructErr
  | propagated : JSErr → ConstructErr
  | threadStart : String → ConstructErr
deriving DecidableEq, Repr

/-- External collaborators of the binding.  `serialize` models
`SerializedScriptValue::create` (returning the serialized value and the
message ports it collected), `disentangle` models
`MessagePort::disentanglePorts`, `processEnv` models the global
object's `m_processEnvObject` when initialized (as its own enumerable
properties), `clientIdentifier` is the identifier assigned by the
Worker implementation, and `updatePtrOk` is the result of
`impl.updatePtr()`. -/
structure Host where
  contextAvailable : Bool
  serialize : JSVal → List JSVal → Except JSErr (Serialized × List Port)
  disentangle : List Port → Except JSErr (List TPort)
  processEnv : Option (List (String × JSVal))
  clientIdentifier : Nat
  updatePtrOk : Bool

/-- The options snapshot `WorkerOptions` filled in by the constructor
(fields of `options` and `options.bun` that lines 130-256 write). -/
structure WorkerOptions where
  name : Option String := none
  mini : Bool := false
  unref : Bool := false
  data : Option Serialized := none
  dataMessagePorts : List TPort := []
  env : Option (List (String × String)) := none
  argv : Option (List String) := none
  execArgv : Option (List String) := none
deriving DecidableEq, Repr

/-- The worker handle as observable through this binding: the options
snapshot plus the mutable state the binding reads or writes
(`keepAlive`, `isContextStopped`, `hasPendingActivity`, the three event
handler slots, the queue of posted messages, and the termination
request flag). -/
structure Worker where
  scriptUrl : String
  options : WorkerOptions
  keepAlive : Bool
  clientIdentifier : Nat
  isContextStopped : Bool
  hasPendingActivity : Bool
  terminationRequested : Bool
  onmessage : Option Nat
  onmessageerror : Option Nat
  onerror : Option Nat
  outbox : List Serialized
deriving DecidableEq, Repr

/-- Lines 134-139: the `name` option is kept only when it is a string. -/
def nameOf (props : List (String × JSVal)) : Option String :=
  match props.lookup "name" with
  | some v => if v.isString then some (toWTFString v) else none
  | none => none

/-- Lines 141-144: the `smol` option, coerced to boolean. -/
def miniOf (props : List (String × JSVal)) : Bool :=
  match props.lookup "smol" with
  | some v => toBoolean v
  | none => false

/-- Lines 130-131 and 146-149: `options.bun.unref` starts false and,
when a `ref` property exists, becomes the negation of its boolean
coercion. -/
def unrefOf (props : List (String × JSVal)) : Bool :=
  match props.lookup "ref" with
  | some v => !toBoolean v
  | none => false

/-- Lines 151-154: the initial payload is the `workerData` property if
it exists, otherwise the `data` property. -/
def chosenWorkerData (props : List (String × JSVal)) : Option JSVal :=
  match props.lookup "workerData" with
  | some wd => some wd
  | none => props.lookup "data"

/-- Lines 160-173: the `transferList` option contributes a transfer
list only when it is an array cell; only object elements are appended. -/
def parseTransferList (props : List (String × JSVal)) : List JSVal :=
  match props.lookup "transferList" with
  | some (JSVal.object isArr _ _ elems) =>
      if isArr then elems.filter JSVal.isObject else []
  | some _ => []
  | none => []

/-- Lines 156-194: serialize the chosen initial payload with the parsed
transfer list, then disentangle any collected ports; either failure is
propagated. -/
def serializeWorkerData (H : Host) (props : List (String × JSVal)) :
    Except ConstructErr (Option Serialized × List TPort) :=
  match chosenWorkerData props with
  | none => Except.ok (none, [])
  | some wd =>
    match H.serialize wd (parseTransferList props) with
    | Except.error e => Except.error (ConstructErr.propagated e)
    | Except.ok (sv, ports) =>
      if ports.isEmpty then Except.ok (some sv, [])
      else
        match H.disentangle ports with
        | Except.error e => Except.error (ConstructErr.propagated e)
        | Except.ok tports => Except.ok (some sv, tports)

/-- Lines 197-205: the env source object is the provided `env` value
when it is a cell (dropped entirely if that cell is not an object),
otherwise the process env object when initialized. -/
def envPropsOf (H : Host) (props : List (String × JSVal)) :
    Option (List (String × JSVal)) :=
  match props.lookup "env" with
  | some v => if v.isCell then v.objProps else H.processEnv
  | none => H.processEnv

/-- WTF HashMap::add: inserts only when the key is not already present
(an existing entry is kept, not overwritten). -/
def hashMapAdd (m : List (String × String)) (k v : String) :
    List (String × String) :=
  match m.lookup k with
  | some _ => m
  | none => m ++ [(k, v)]

/-- envObject->get(key) for an own property key. -/
def envGet (props : List (String × JSVal)) (k : String) : JSVal :=
  (props.lookup k).getD JSVal.undefined

/-- Lines 213-227: iterate the own enumerable string-keyed property
names, coerce each value to a string, and `add` isolated copies of key
and value to the env map. -/
def captureEnv (props : List (String × JSVal)) : List (String × String) :=
  (props.map Prod.fst).foldl
    (fun env key =>
      hashMapAdd env (isolatedCopy key) (isolatedCopy (toWTFString (envGet props key))))
    []

/-- Lines 230-256: `argv` / `execArgv` are captured only when present
and array-typed; each element is coerced to a string and isolated. -/
def parseArgvOpt : Option JSVal → Option (List String)
  | some (JSVal.object isArr _ _ elems) =>
      if isArr then some (elems.map fun x => isolatedCopy (toWTFString x)) else none
  | some _ => none
  | none => none

/-- Lines 130-257: build the options snapshot from the second
constructor argument.  A non-object argument leaves every option at its
default. -/
def parseOptions (H : Host) (arg1 : JSVal) : Except ConstructErr WorkerOptions :=
  match arg1 with
  | JSVal.object _ _ props _ =>
    match serializeWorkerData H props with
    | Except.error e => Except.error e
    | Except.ok d =>
      Except.ok
        { name := nameOf props
          mini := miniOf props
          unref := unrefOf props
          data := d.1
          dataMessagePorts := d.2
          env := (envPropsOf H props).map captureEnv
          argv := parseArgvOpt (props.lookup "argv")
          execArgv := parseArgvOpt (props.lookup "execArgv") }
  | _ => Except.ok {}

/-- JSWorkerDOMConstructor::construct (lines 114-278).  The initial
`keepAlive`, `isContextStopped` and `hasPendingActivity` values of the
returned handle are modelled from the spec (the Worker implementation
consuming the options snapshot is not part of this file): a freshly
started worker has pending activity, a live context, and
`keepAlive = !options.unref`. -/
def construct (H : Host) (args : List JSVal) : Except ConstructErr Worker :=
  if args.length < 1 then Except.error ConstructErr.notEnoughArguments
  else if H.contextAvailable = false then Except.error ConstructErr.contextUnavailable
  else
    match parseOptions H (args.getD 1 JSVal.undefined) with
    | Except.error e => Except.error e
    | Except.ok options =>
      if H.updatePtrOk then
        Except.ok
          { scriptUrl := toWTFString (args.getD 0 JSVal.undefined)
            options := options
            keepAlive := !options.unref
            clientIdentifier := H.clientIdentifier
            isContextStopped := false
            hasPendingActivity := true
            terminationRequested := false
            onmessage := none
            onmessageerror := none
            onerror := none
            outbox := [] }
      else Except.error (ConstructErr.threadStart "Failed to start Worker thread")

/-- Outcome of the postMessage overload dispatcher: which body is run,
or which error is thrown. -/
inductive DispatchResult : Type where
  | body2 : DispatchResult
  | body1 : DispatchResult
  | typeError : DispatchResult
  | notEnoughArguments : DispatchResult
deriving DecidableEq, Repr

/-- Lines 507-533: jsWorkerPrototypeFunction_postMessageOverloadDispatcher.
`body2` is the options-object overload, `body1` the transfer-list
overload. -/
def postMessageOverloadDispatcher (args : List JSVal) : DispatchResult :=
  let argsCount := min 2 args.length
  if argsCount = 1 then DispatchResult.body2
  else if argsCount = 2 then
    let distinguishingArg := args.getD 1 JSVal.undefined
    if distinguishingArg.isUndefined then DispatchResult.body2
    else if distinguishingArg.isUndefinedOrNull then DispatchResult.body2
    else if hasIteratorMethod distinguishingArg then DispatchResult.body1
    else if distinguishingArg.isObject then DispatchResult.body2
    else DispatchResult.typeError
  else DispatchResult.notEnoughArguments

/-- convert of IDLSequence of IDLObject: the value must be iterable and
every element must be an object, otherwise a TypeError is thrown. -/
def convertSequenceOfObjects (v : JSVal) : Except JSErr (List JSVal) :=
  match v with
  | JSVal.object _ hasIt _ elems =>
      if hasIt then
        if elems.all JSVal.isObject then Except.ok elems
        else Except.error JSErr.typeError
      else Except.error JSErr.typeError
  | _ => Except.error JSErr.typeError

/-- Lines 491-501 of jsWorkerPrototypeFunction_postMessage2Body: the
transfer list used by the options-object overload is the converted
`transfer` property when the second argument is an object that has one,
and empty otherwise. -/
def postMessage2Transfer (optionsValue : JSVal) : Except JSErr (List JSVal) :=
  match optionsValue with
  | JSVal.object _ _ props _ =>
    match props.lookup "transfer" with
    | some tv => convertSequenceOfObjects tv
    | none => Except.ok []
  | _ => Except.ok []

/-- Operations the prototype functions and setters of this file perform
on a live handle. -/
inductive WorkerOp : Type where
  | ref : WorkerOp
  | unref : WorkerOp
  | terminate : WorkerOp
  | postMessage : Serialized → WorkerOp
  | setOnmessage : Option Nat → WorkerOp
  | setOnmessageerror : Option Nat → WorkerOp
  | setOnerror : Option Nat → WorkerOp
deriving DecidableEq, Repr

/-- Lines 540-544: jsWorkerPrototypeFunction_refBody calls
setKeepAlive(true). -/
def refBody (w : Worker) : Worker := { w with keepAlive := true }

/-- Lines 551-555: jsWorkerPrototypeFunction_unrefBody calls
setKeepAlive(false). -/
def unrefBody (w : Worker) : Worker := { w with keepAlive := false }

/-- Modelled from the spec: Worker::terminate (the implementation is
not in this file) requests asynchronous shutdown and is idempotent; its
synchronous effect on the handle is recording the request. -/
def terminateBody (w : Worker) : Worker := { w with terminationRequested := true }

/-- Modelled from the spec: Worker::postMessage (the implementation is
not in this file) enqueues the serialized message FIFO for asynchronous
delivery. -/
def postMessageBody (w : Worker) (m : Serialized) : Worker :=
  { w with outbox := w.outbox ++ [m] }

/-- Lines 380-389, 407-416, 434-443: the event-handler setters replace
the corresponding single slot. -/
def setHandlerBody (w : Worker) : WorkerOp → Worker
  | WorkerOp.setOnmessage h => { w with onmessage := h }
  | WorkerOp.setOnmessageerror h => { w with onmessageerror := h }
  | WorkerOp.setOnerror h => { w with onerror := h }
  | _ => w

/-- One step of the handle under an operation of this file. -/
def applyOp (w : Worker) : WorkerOp → Worker
  | WorkerOp.ref => refBody w
  | WorkerOp.unref => unrefBody w
  | WorkerOp.terminate => terminateBody w
  | WorkerOp.postMessage m => postMessageBody w m
  | op => setHandlerBody w op

/-- Lines 581-593: JSWorkerOwner::isReachableFromOpaqueRoots returns
true exactly when the wrapped worker's context is not stopped and it
has pending activity. -/
def isReachableFromOpaqueRoots (w : Worker) : Bool :=
  !w.isContextStopped && w.hasPendingActivity

/-- A receiver value for the threadId accessor: either an actual
JSWorker wrapper or some other value. -/
inductive ThisVal : Type where
  | worker : Worker → ThisVal
  | other : JSVal → ThisVal

/-- jsDynamicCast to JSWorker on the receiver. -/
def toWrappedWorker : ThisVal → Option Worker
  | ThisVal.worker w => some w
  | ThisVal.other _ => none

/-- Lines 297-308: jsWorker_threadIdGetter returns
clientIdentifier - 1, or undefined when the receiver fails the
JSWorker cast. -/
def threadIdGetter (thisValue : ThisVal) : JSVal :=
  match toWrappedWorker thisValue with
  | some w => JSVal.number ((w.clientIdentifier : Int) - 1)
  | none => JSVal.undefined

/-! Concrete fixtures used by the witness theorems. -/

/-- A well-behaved host: serialization always succeeds with no ports,
the context is live, and the thread starts. -/
def H0 : Host :=
  { contextAvailable := true
    serialize := fun _ _ => Except.ok (⟨7⟩, [])
    disentangle := fun ps => Except.ok (ps.map fun p => ⟨p.id⟩)
    processEnv := none
    clientIdentifier := 2
    updatePtrOk := true }

/-- A host whose serializer always fails. -/
def Hfail : Host :=
  { H0 with serialize := fun _ _ => Except.error (JSErr.custom 3) }

/-- A host whose serializer collects one port and whose disentangle
step fails. -/
def Hports : Host :=
  { H0 with
    serialize := fun _ _ => Except.ok (⟨7⟩, [⟨1⟩])
    disentangle := fun _ => Except.error (JSErr.custom 4) }

/-- A host whose thread start (updatePtr) fails. -/
def Hnostart : Host := { H0 with updatePtrOk := false }

/-- A host with an inherited process environment snapshot. -/
def Henv : Host :=
  { H0 with processEnv := some [("PATH", JSVal.string "/bin")] }

/-- Constructor arguments with `ref: false`. -/
def argsRefFalse : List JSVal :=
  [JSVal.string "w.js",
   JSVal.object false false [("ref", JSVal.boolean false)] []]

/-- Constructor arguments carrying a `workerData` payload. -/
def argsData : List JSVal :=
  [JSVal.string "w.js",
   JSVal.object false false [("workerData", JSVal.number 1)] []]

/-- Constructor arguments carrying both `workerData` and `data`. -/
def argsBoth : List JSVal :=
  [JSVal.string "w.js",
   JSVal.object false false
     [("workerData", JSVal.number 1), ("data", JSVal.number 2)] []]

/-- An options property list with an `env` object. -/
def propsEnv : List (String × JSVal) :=
  [("env", JSVal.object false false [("K", JSVal.number 3)] [])]

/-- An options property list with a non-array `argv` and a non-array
`transferList`, together with a `workerData` payload. -/
def propsOdd : List (String × JSVal) :=
  [("workerData", JSVal.number 1),
   ("argv", JSVal.number 9),
   ("transferList", JSVal.number 8)]

/-- A default worker used only to give `Option.getD` a fallback. -/
def wDefault : Worker :=
  { scriptUrl := ""
    options := {}
    keepAlive := true
    clientIdentifier := 0
    isContextStopped := false
    hasPendingActivity := false
    terminationRequested := false
    onmessage := none
    onmessageerror := none
    onerror := none
    outbox := [] }

/-- The concrete worker produced by `construct H0 argsRefFalse`. -/
def wRefFalse : Worker := (construct H0 argsRefFalse).toOption.getD wDefault

/-- The concrete options produced by parsing `propsEnv`. -/
def optsEnv : WorkerOptions :=
  (parseOptions H0 (JSVal.object false false propsEnv [])).toOption.getD {}

/-- The concrete options produced by parsing `argsBoth`'s option
object. -/
def optsBoth : WorkerOptions :=
  (parseOptions H0 (argsBoth.getD 1 JSVal.undefined)).toOption.getD {}

/-- The concrete options produced by parsing `propsOdd`. -/
def optsOdd : WorkerOptions :=
  (parseOptions H0 (JSVal.object false false propsOdd [])).toOption.getD {}

/-! Helper lemmas shared by the claim theorems. -/

lemma lookup_append {α β : Type} [BEq α] (k : α) (l1 l2 : List (α × β)) :
    (l1 ++ l2).lookup k = ((l1.lookup k).orElse fun _ => l2.lookup k) := by
  induction l1 with
  | nil => simp [List.lookup]
  | cons p rest ih =>
    obtain ⟨ka, va⟩ := p
    by_cases h : k == ka
    · simp [List.lookup, h]
    · simp only [Bool.not_eq_true] at h
      simp [List.lookup, h, ih]

lemma foldl_hashMapAdd (g : String → String) :
    ∀ (keys : List String) (acc : List (String × String)),
      keys.Nodup → (∀ k, k ∈ keys → acc.lookup k = none) →
      keys.foldl (fun env key => hashMapAdd env key (g key)) acc
        = acc ++ keys.map fun k => (k, g k)
  | [], acc, _, _ => by simp
  | k :: ks, acc, hnd, hacc => by
    have hk : acc.lookup k = none := hacc k (by simp)
    have hadd : hashMapAdd acc k (g k) = acc ++ [(k, g k)] := by
      simp [hashMapAdd, hk]
    have hnd' := List.nodup_cons.mp hnd
    rw [List.foldl_cons, hadd,
      foldl_hashMapAdd g ks (acc ++ [(k, g k)]) hnd'.2 ?_]
    · simp
    · intro k' hk'
      rw [lookup_append]
      have h1 : acc.lookup k' = none := hacc k' (List.mem_cons_of_mem _ hk')
      have hne : (k' == k) = false := by
        refine beq_eq_false_iff_ne.mpr fun h => hnd'.1 (h ▸ hk')
      simp [h1, List.lookup, hne]

lemma map_keys_envGet (ps : List (String × JSVal))
    (h : (ps.map Prod.fst).Nodup) :
    (ps.map Prod.fst).map
        (fun k => (k, isolatedCopy (toWTFString (envGet ps k))))
      = ps.map fun kv => (isolatedCopy kv.1, isolatedCopy (toWTFString kv.2)) := by
  induction ps with
  | nil => rfl
  | cons kv rest ih =>
    obtain ⟨k, v⟩ := kv
    simp only [List.map_cons] at h ⊢
    have hnd := List.nodup_cons.mp h
    have hhead : envGet ((k, v) :: rest) k = v := by
      simp [envGet, List.lookup]
    refine congrArg₂ List.cons (by rw [hhead]; rfl) ?_
    have htail : ∀ k' ∈ rest.map Prod.fst,
        envGet ((k, v) :: rest) k' = envGet rest k' := by
      intro k' hk'
      have hne : (k' == k) = false :=
        beq_eq_false_iff_ne.mpr fun hkk => hnd.1 (hkk ▸ hk')
      simp [envGet, List.lookup, hne]
    calc (rest.map Prod.fst).map
          (fun k' => (k', isolatedCopy (toWTFString (envGet ((k, v) :: rest) k'))))
        = (rest.map Prod.fst).map
          (fun k' => (k', isolatedCopy (toWTFString (envGet rest k')))) := by
          refine List.map_congr_left fun a ha => ?_
          rw [htail a ha]
      _ = rest.map fun kv => (isolatedCopy kv.1, isolatedCopy (toWTFString kv.2)) :=
          ih hnd.2

lemma captureEnv_nodup (ps : List (String × JSVal))
    (h : (ps.map Prod.fst).Nodup) :
    captureEnv ps
      = ps.map fun kv => (isolatedCopy kv.1, isolatedCopy (toWTFString kv.2)) := by
  unfold captureEnv
  simp only [isolatedCopy]
  rw [foldl_hashMapAdd (fun k => toWTFString (envGet ps k)) (ps.map Prod.fst)
    ([] : List (String × String)) h (fun k _ => rfl)]
  simpa [isolatedCopy] using map_keys_envGet ps h

lemma parseOptions_object_ok {H : Host} {a it : Bool}
    {props : List (String × JSVal)} {el : List JSVal} {o : WorkerOptions}
    (h : parseOptions H (JSVal.object a it props el) = Except.ok o) :
    ∃ d, serializeWorkerData H props = Except.ok d ∧
      o = { name := nameOf props
            mini := miniOf props
            unref := unrefOf props
            data := d.1
            dataMessagePorts := d.2
            env := (envPropsOf H props).map captureEnv
            argv := parseArgvOpt (props.lookup "argv")
            execArgv := parseArgvOpt (props.lookup "execArgv") } := by
  cases hsd : serializeWorkerData H props with
  | error e => simp [parseOptions, hsd] at h
  | ok d =>
    simp only [parseOptions, hsd, Except.ok.injEq] at h
    exact ⟨d, rfl, h.symm⟩

lemma construct_ok {H : Host} {args : List JSVal} {w : Worker}
    (h : construct H args = Except.ok w) :
    1 ≤ args.length ∧ H.contextAvailable = true ∧ H.updatePtrOk = true ∧
    ∃ opts, parseOptions H (args.getD 1 JSVal.undefined) = Except.ok opts ∧
      w = { scriptUrl := toWTFString (args.getD 0 JSVal.undefined)
            options := opts
            keepAlive := !opts.unref
            clientIdentifier := H.clientIdentifier
            isContextStopped := false
            hasPendingActivity := true
            terminationRequested := false
            onmessage := none
            onmessageerror := none
            onerror := none
            outbox := [] } := by
  unfold construct at h
  split at h
  next => cases h
  next hlen =>
    split at h
    next => cases h
    next hctx =>
      split at h
      next e heq => cases h
      next opts heq =>
        split at h
        next hupd =>
          exact ⟨by omega, by simpa using hctx, hupd, opts, heq, (Except.ok.inj h).symm⟩
        next => cases h

/-! Claim theorems. -/

/-- Claim C1: postMessage overload resolution.  With exactly one
argument the options-object body runs with an empty transfer list; with
two arguments an undefined-or-null second argument selects the
options-object body, an iterable one selects the transfer-list body,
any other object selects the options-object body (whose transfer list
is read from the `transfer` property when present), and anything else
throws a TypeError; with zero arguments a not-enough-arguments error is
thrown. -/
theorem postMessage_overload_resolution :
    (∀ args : List JSVal, args.length = 0 →
      postMessageOverloadDispatcher args = DispatchResult.notEnoughArguments) ∧
    (∀ args : List JSVal, args.length = 1 →
      postMessageOverloadDispatcher args = DispatchResult.body2 ∧
      postMessage2Transfer (args.getD 1 JSVal.undefined) = Except.ok []) ∧
    (∀ args : List JSVal, 2 ≤ args.length →
      postMessageOverloadDispatcher args =
        (if (args.getD 1 JSVal.undefined).isUndefinedOrNull then DispatchResult.body2
         else if hasIteratorMethod (args.getD 1 JSVal.undefined) then DispatchResult.body1
         else if (args.getD 1 JSVal.undefined).isObject then DispatchResult.body2
         else DispatchResult.typeError)) ∧
    (∀ (a it : Bool) (props : List (String × JSVal)) (el : List JSVal) (tv : JSVal),
      props.lookup "transfer" = some tv →
      postMessage2Transfer (JSVal.object a it props el) = convertSequenceOfObjects tv) := by
  refine ⟨?_, ?_, ?_, ?_⟩
  · intro args h
    simp [postMessageOverloadDispatcher, h]
  · intro args h
    constructor
    · simp [postMessageOverloadDispatcher, h]
    · rw [List.getD_eq_default _ _ (by omega)]
      rfl
  · intro args h
    have hmin : min 2 args.length = 2 := Nat.min_eq_left h
    simp only [postMessageOverloadDispatcher, hmin]
    generalize args.getD 1 JSVal.undefined = d
    cases d <;>
      simp [JSVal.isUndefined, JSVal.isUndefinedOrNull, hasIteratorMethod,
        JSVal.isObject]
  · intro a it props el tv h
    simp [postMessage2Transfer, h]

/-- Witness for C1 at concrete inputs: one argument selects the
options-object body, and a numeric second argument is rejected with a
TypeError. -/
theorem postMessage_overload_resolution_witness :
    postMessageOverloadDispatcher [JSVal.number 1] = DispatchResult.body2 ∧
    postMessageOverloadDispatcher [JSVal.number 1, JSVal.number 5]
      = DispatchResult.typeError := by
  constructor
  · exact (postMessage_overload_resolution.2.1 [JSVal.number 1] rfl).1
  · have h := postMessage_overload_resolution.2.2.1
      [JSVal.number 1, JSVal.number 5] (by decide)
    simpa using h

/-- Claim C4: JSWorkerOwner::isReachableFromOpaqueRoots reports the
handle reachable exactly when the wrapped context is not stopped and
the worker has pending activity, so the wrapper is protected from
reclamation exactly in that situation. -/
theorem reachable_iff_pending_activity :
    ∀ w : Worker, isReachableFromOpaqueRoots w = true ↔
      (w.isContextStopped = false ∧ w.hasPendingActivity = true) := by
  intro w
  simp [isReachableFromOpaqueRoots]

/-- Witness for C4: a worker with a live context and pending activity
is reported reachable. -/
theorem reachable_iff_pending_activity_witness :
    isReachableFromOpaqueRoots
      { scriptUrl := ""
        options := {}
        keepAlive := true
        clientIdentifier := 2
        isContextStopped := false
        hasPendingActivity := true
        terminationRequested := false
        onmessage := none
        onmessageerror := none
        onerror := none
        outbox := [] } = true :=
  (reachable_iff_pending_activity _).mpr ⟨rfl, rfl⟩

/-- Claim C7: the threadId accessor returns clientIdentifier - 1 on a
worker receiver and undefined (not an error) when the receiver fails
the JSWorker type check. -/
theorem threadId_accessor :
    (∀ w : Worker,
      threadIdGetter (ThisVal.worker w) = JSVal.number ((w.clientIdentifier : Int) - 1)) ∧
    (∀ v : JSVal, threadIdGetter (ThisVal.other v) = JSVal.undefined) :=
  ⟨fun _ => rfl, fun _ => rfl⟩

/-- Claim C6: when option parsing succeeds but the thread fails to
start (updatePtr returns false), construction fails with the
"Failed to start Worker thread" error and no handle is produced. -/
theorem thread_start_failure_aborts (H : Host) (args : List JSVal)
    (opts : WorkerOptions)
    (hlen : 1 ≤ args.length)
    (hctx : H.contextAvailable = true)
    (hpo : parseOptions H (args.getD 1 JSVal.undefined) = Except.ok opts)
    (hupd : H.updatePtrOk = false) :
    construct H args
      = Except.error (ConstructErr.threadStart "Failed to start Worker thread") := by
  unfold construct
  rw [if_neg (by omega), if_neg (by simp [hctx]), hpo]
  simp [hupd]

/-- Witness for C6: a host whose updatePtr fails makes construction
fail with the thread-start error. -/
theorem thread_start_failure_aborts_witness :
    construct Hnostart [JSVal.string "w.js"]
      = Except.error (ConstructErr.threadStart "Failed to start Worker thread") :=
  thread_start_failure_aborts Hnostart [JSVal.string "w.js"] {}
    (by decide) rfl rfl rfl

/-- Claim C2: an `env` option provided as an object has every
enumerable string-keyed own property coerced to a string and captured
(with isolated copies of key and value) into the env snapshot; since
own property keys are unique, the capture is exactly the key-to-value
map.  When `env` is omitted the snapshot defaults to the inherited
process environment when one exists. -/
theorem env_capture_semantics :
    (∀ ps : List (String × JSVal), (ps.map Prod.fst).Nodup →
      captureEnv ps
        = ps.map fun kv => (isolatedCopy kv.1, isolatedCopy (toWTFString kv.2))) ∧
    (∀ (H : Host) (a it ea ei : Bool) (props eps : List (String × JSVal))
        (el eel : List JSVal) (o : WorkerOptions),
      props.lookup "env" = some (JSVal.object ea ei eps eel) →
      parseOptions H (JSVal.object a it props el) = Except.ok o →
      o.env = some (captureEnv eps)) ∧
    (∀ (H : Host) (a it : Bool) (props : List (String × JSVal)) (el : List JSVal)
        (o : WorkerOptions),
      props.lookup "env" = none →
      parseOptions H (JSVal.object a it props el) = Except.ok o →
      o.env = H.processEnv.map captureEnv) := by
  refine ⟨captureEnv_nodup, ?_, ?_⟩
  · intro H a it ea ei props eps el eel o hl hpo
    obtain ⟨d, hsd, ho⟩ := parseOptions_object_ok hpo
    subst ho
    simp [envPropsOf, hl, JSVal.isCell, JSVal.objProps]
  · intro H a it props el o hl hpo
    obtain ⟨d, hsd, ho⟩ := parseOptions_object_ok hpo
    subst ho
    simp [envPropsOf, hl]

/-- Witness for C2: a two-key env object is captured to its string
map, and a provided env object ends up in the parsed options. -/
theorem env_capture_semantics_witness :
    captureEnv [("A", JSVal.number 1), ("B", JSVal.string "x")]
      = [("A", "1"), ("B", "x")] ∧
    parseOptions H0 (JSVal.object false false propsEnv []) = Except.ok optsEnv ∧
    optsEnv.env = some [("K", "3")] := by
  refine ⟨?_, rfl, ?_⟩
  · have h := env_capture_semantics.1
      [("A", JSVal.number 1), ("B", JSVal.string "x")] (by decide)
    exact h.trans (by decide)
  · have h := env_capture_semantics.2.1 H0 false false false false propsEnv
      [("K", JSVal.number 3)] [] [] optsEnv rfl rfl
    exact h.trans (by decide)

/-- Claim C3: keepAlive is true after construction unless a present
`ref` option coerces to false; thereafter only ref() (to true) and
unref() (to false) change it, and no other operation of this binding
touches it. -/
theorem keepAlive_ref_unref_only :
    (∀ (H : Host) (args : List JSVal) (w : Worker),
      construct H args = Except.ok w →
      w.keepAlive = (match args.getD 1 JSVal.undefined with
        | JSVal.object _ _ props _ =>
          (match props.lookup "ref" with
           | some v => toBoolean v
           | none => true)
        | _ => true)) ∧
    (∀ w : Worker, (applyOp w WorkerOp.ref).keepAlive = true) ∧
    (∀ w : Worker, (applyOp w WorkerOp.unref).keepAlive = false) ∧
    (∀ (w : Worker) (op : WorkerOp), op ≠ WorkerOp.ref → op ≠ WorkerOp.unref →
      (applyOp w op).keepAlive = w.keepAlive) := by
  refine ⟨?_, fun _ => rfl, fun _ => rfl, ?_⟩
  · intro H args w h
    obtain ⟨-, -, -, opts, hpo, hw⟩ := construct_ok h
    subst hw
    cases hd : args.getD 1 JSVal.undefined with
    | object a it props el =>
      rw [hd] at hpo
      obtain ⟨d, hsd, ho⟩ := parseOptions_object_ok hpo
      subst ho
      cases hl : props.lookup "ref" with
      | none => simp [unrefOf, hl]
      | some v => simp [unrefOf, hl]
    | undefined =>
      rw [hd] at hpo
      simp only [parseOptions, Except.ok.injEq] at hpo
      subst hpo
      rfl
    | null =>
      rw [hd] at hpo
      simp only [parseOptions, Except.ok.injEq] at hpo
      subst hpo
      rfl
    | boolean b =>
      rw [hd] at hpo
      simp only [parseOptions, Except.ok.injEq] at hpo
      subst hpo
      rfl
    | number n =>
      rw [hd] at hpo
      simp only [parseOptions, Except.ok.injEq] at hpo
      subst hpo
      rfl
    | string s =>
      rw [hd] at hpo
      simp only [parseOptions, Except.ok.injEq] at hpo
      subst hpo
      rfl
  · intro w op h1 h2
    cases op with
    | ref => exact absurd rfl h1
    | unref => exact absurd rfl h2
    | terminate => rfl
    | postMessage m => rfl
    | setOnmessage h => rfl
    | setOnmessageerror h => rfl
    | setOnerror h => rfl

/-- Witness for C3: constructing with `ref: false` yields
keepAlive = false, and posting a message leaves keepAlive unchanged. -/
theorem keepAlive_ref_unref_only_witness :
    construct H0 argsRefFalse = Except.ok wRefFalse ∧
    wRefFalse.keepAlive = false ∧
    (applyOp wRefFalse (WorkerOp.postMessage ⟨0⟩)).keepAlive
      = wRefFalse.keepAlive := by
  have hc : construct H0 argsRefFalse = Except.ok wRefFalse := rfl
  refine ⟨hc, ?_, ?_⟩
  · have h := keepAlive_ref_unref_only.1 H0 argsRefFalse wRefFalse hc
    exact h.trans (by decide)
  · exact keepAlive_ref_unref_only.2.2.2 wRefFalse (WorkerOp.postMessage ⟨0⟩)
      (by decide) (by decide)

/-- Claim C5: a serialization failure of the initial workerData
payload, or a failure to disentangle its ports, propagates the
originating error and aborts construction with no handle. -/
theorem serialization_failure_aborts :
    (∀ (H : Host) (s : JSVal) (a it : Bool) (props : List (String × JSVal))
        (el : List JSVal) (wd : JSVal) (e : JSErr),
      H.contextAvailable = true →
      chosenWorkerData props = some wd →
      H.serialize wd (parseTransferList props) = Except.error e →
      construct H [s, JSVal.object a it props el]
        = Except.error (ConstructErr.propagated e)) ∧
    (∀ (H : Host) (s : JSVal) (a it : Bool) (props : List (String × JSVal))
        (el : List JSVal) (wd : JSVal) (sv : Serialized) (ports : List Port)
        (e : JSErr),
      H.contextAvailable = true →
      chosenWorkerData props = some wd →
      H.serialize wd (parseTransferList props) = Except.ok (sv, ports) →
      ports ≠ [] →
      H.disentangle ports = Except.error e →
      construct H [s, JSVal.object a it props el]
        = Except.error (ConstructErr.propagated e)) := by
  constructor
  · intro H s a it props el wd e hctx hwd hser
    have hsd : serializeWorkerData H props
        = Except.error (ConstructErr.propagated e) := by
      simp [serializeWorkerData, hwd, hser]
    have hpo : parseOptions H (JSVal.object a it props el)
        = Except.error (ConstructErr.propagated e) := by
      simp [parseOptions, hsd]
    unfold construct
    rw [if_neg (by simp), if_neg (by simp [hctx]),
      show ([s, JSVal.object a it props el].getD 1 JSVal.undefined)
        = JSVal.object a it props el from rfl, hpo]
  · intro H s a it props el wd sv ports e hctx hwd hser hne hdis
    cases ports with
    | nil => exact absurd rfl hne
    | cons p ps =>
      have hsd : serializeWorkerData H props
          = Except.error (ConstructErr.propagated e) := by
        simp [serializeWorkerData, hwd, hser, hdis]
      have hpo : parseOptions H (JSVal.object a it props el)
          = Except.error (ConstructErr.propagated e) := by
        simp [parseOptions, hsd]
      unfold construct
      rw [if_neg (by simp), if_neg (by simp [hctx]),
        show ([s, JSVal.object a it props el].getD 1 JSVal.undefined)
          = JSVal.object a it props el from rfl, hpo]

/-- Witness for C5: a failing serializer and a failing disentangle
step each abort construction with the propagated error. -/
theorem serialization_failure_aborts_witness :
    construct Hfail argsData
      = Except.error (ConstructErr.propagated (JSErr.custom 3)) ∧
    construct Hports argsData
      = Except.error (ConstructErr.propagated (JSErr.custom 4)) := by
  constructor
  · exact serialization_failure_aborts.1 Hfail (JSVal.string "w.js") false false
      [("workerData", JSVal.number 1)] [] (JSVal.number 1) (JSErr.custom 3)
      rfl rfl rfl
  · exact serialization_failure_aborts.2 Hports (JSVal.string "w.js") false false
      [("workerData", JSVal.number 1)] [] (JSVal.number 1) ⟨7⟩ [⟨1⟩]
      (JSErr.custom 4) rfl rfl rfl (by decide) rfl

/-- Claim C8: `workerData` wins over `data`; `data` is consulted only
when `workerData` is absent; the chosen value is serialized at
construction time with the transfer list parsed from the
`transferList` option, and the result is stored in the options
snapshot. -/
theorem workerData_precedence :
    (∀ (props : List (String × JSVal)) (w : JSVal),
      props.lookup "workerData" = some w → chosenWorkerData props = some w) ∧
    (∀ props : List (String × JSVal),
      props.lookup "workerData" = none →
      chosenWorkerData props = props.lookup "data") ∧
    (∀ (H : Host) (a it : Bool) (props : List (String × JSVal)) (el : List JSVal)
        (wd : JSVal) (sv : Serialized) (o : WorkerOptions),
      chosenWorkerData props = some wd →
      H.serialize wd (parseTransferList props) = Except.ok (sv, []) →
      parseOptions H (JSVal.object a it props el) = Except.ok o →
      o.data = some sv) := by
  refine ⟨?_, ?_, ?_⟩
  · intro props w h
    simp [chosenWorkerData, h]
  · intro props h
    simp [chosenWorkerData, h]
  · intro H a it props el wd sv o hwd hser hpo
    obtain ⟨d, hsd, ho⟩ := parseOptions_object_ok hpo
    have hval : serializeWorkerData H props = Except.ok (some sv, []) := by
      simp [serializeWorkerData, hwd, hser]
    rw [hval] at hsd
    cases Except.ok.inj hsd
    subst ho
    rfl

/-- Witness for C8: with both `workerData` and `data` present,
`workerData` is chosen and its serialization is stored. -/
theorem workerData_precedence_witness :
    chosenWorkerData [("workerData", JSVal.number 1), ("data", JSVal.number 2)]
      = some (JSVal.number 1) ∧
    parseOptions H0 (argsBoth.getD 1 JSVal.undefined) = Except.ok optsBoth ∧
    optsBoth.data = some ⟨7⟩ := by
  refine ⟨?_, rfl, ?_⟩
  · exact workerData_precedence.1 _ _ rfl
  · exact workerData_precedence.2.2 H0 false false
      [("workerData", JSVal.number 1), ("data", JSVal.number 2)] []
      (JSVal.number 1) ⟨7⟩ optsBoth rfl rfl rfl

/-- Claim C9: `argv` and `execArgv` are captured only when present and
array-typed, with each element coerced to a string; a present
non-array value is silently ignored and never raises. -/
theorem argv_capture_semantics :
    (∀ (it : Bool) (ps : List (String × JSVal)) (el : List JSVal),
      parseArgvOpt (some (JSVal.object true it ps el))
        = some (el.map fun x => isolatedCopy (toWTFString x))) ∧
    (∀ v : JSVal, isArrayTyped v = false → parseArgvOpt (some v) = none) ∧
    (parseArgvOpt none = none) ∧
    (∀ (H : Host) (a it : Bool) (props : List (String × JSVal)) (el : List JSVal)
        (o : WorkerOptions),
      parseOptions H (JSVal.object a it props el) = Except.ok o →
      o.argv = parseArgvOpt (props.lookup "argv") ∧
      o.execArgv = parseArgvOpt (props.lookup "execArgv")) ∧
    (∀ (H : Host) (a it : Bool) (props : List (String × JSVal)) (el : List JSVal),
      chosenWorkerData props = none →
      (parseOptions H (JSVal.object a it props el)).isOk = true) := by
  refine ⟨fun _ _ _ => rfl, ?_, rfl, ?_, ?_⟩
  · intro v h
    cases v <;> simp_all [isArrayTyped, parseArgvOpt]
  · intro H a it props el o hpo
    obtain ⟨d, hsd, ho⟩ := parseOptions_object_ok hpo
    subst ho
    exact ⟨rfl, rfl⟩
  · intro H a it props el h
    have hsd : serializeWorkerData H props = Except.ok (none, []) := by
      simp [serializeWorkerData, h]
    simp [parseOptions, hsd, Except.isOk, Except.toBool]

/-- Witness for C9: an array argv is captured element by element, a
numeric argv is ignored, and parsing still succeeds. -/
theorem argv_capture_semantics_witness :
    parseArgvOpt
        (some (JSVal.object true false [] [JSVal.number 1, JSVal.string "b"]))
      = some ["1", "b"] ∧
    parseArgvOpt (some (JSVal.number 9)) = none ∧
    parseOptions H0 (JSVal.object false false propsOdd []) = Except.ok optsOdd ∧
    optsOdd.argv = none := by
  refine ⟨?_, ?_, rfl, ?_⟩
  · have h := argv_capture_semantics.1 false [] [JSVal.number 1, JSVal.string "b"]
    exact h.trans (by decide)
  · exact argv_capture_semantics.2.1 (JSVal.number 9) rfl
  · have h := (argv_capture_semantics.2.2.2.1 H0 false false propsOdd []
      optsOdd rfl).1
    exact h.trans (by decide)

/-- Claim C10: a non-array `transferList` value is silently ignored
(the transfer list is empty), non-object elements of a transferList
array are skipped, and neither case makes option parsing fail. -/
theorem transferList_leniency :
    (∀ (props : List (String × JSVal)) (tv : JSVal),
      props.lookup "transferList" = some tv → isArrayTyped tv = false →
      parseTransferList props = []) ∧
    (∀ (props : List (String × JSVal)) (it : Bool) (ps : List (String × JSVal))
        (el : List JSVal),
      props.lookup "transferList" = some (JSVal.object true it ps el) →
      parseTransferList props = el.filter JSVal.isObject) ∧
    (∀ (H : Host) (a it : Bool) (props : List (String × JSVal)) (el : List JSVal)
        (wd : JSVal) (sv : Serialized),
      chosenWorkerData props = some wd →
      H.serialize wd (parseTransferList props) = Except.ok (sv, []) →
      (parseOptions H (JSVal.object a it props el)).isOk = true) := by
  refine ⟨?_, ?_, ?_⟩
  · intro props tv hl ha
    cases tv <;> simp_all [parseTransferList, isArrayTyped]
  · intro props it ps el hl
    simp [parseTransferList, hl]
  · intro H a it props el wd sv hwd hser
    have hsd : serializeWorkerData H props = Except.ok (some sv, []) := by
      simp [serializeWorkerData, hwd, hser]
    simp [parseOptions, hsd, Except.isOk, Except.toBool]

/-- Witness for C10: a numeric transferList yields an empty transfer
list without failing, and a mixed array keeps only its object
element. -/
theorem transferList_leniency_witness :
    parseTransferList propsOdd = [] ∧
    parseTransferList
        [("transferList",
          JSVal.object true false []
            [JSVal.number 1, JSVal.object false false [] []])]
      = [JSVal.object false false [] []] ∧
    (parseOptions H0 (JSVal.object false false propsOdd [])).isOk = true := by
  refine ⟨?_, ?_, ?_⟩
  · exact transferList_leniency.1 propsOdd (JSVal.number 8) rfl rfl
  · have h := transferList_leniency.2.1
      [("transferList",
        JSVal.object true false []
          [JSVal.number 1, JSVal.object false false [] []])]
      false [] [JSVal.number 1, JSVal.object false false [] []] rfl
    exact h.trans rfl
  · exact transferList_leniency.2.2 H0 false false propsOdd []
      (JSVal.number 1) ⟨7⟩ rfl rfl

end BunWorker
